import Mathlib

/-!
Shallow embedding of the cyan-skillfish-governor control core, translated
from the Rust sources (`src/main.rs`, `src/governor.rs`, `src/lib.rs`,
`src/load_monitor.rs`, `src/process_monitor.rs`, `src/process_detection.rs`,
`examples/process_aware_governor.rs`).

Modelling conventions:
* `f32`/`f64` values (loads, targets, comfort scores) are embedded as `ℚ`;
  the program's float arithmetic is modelled exactly at the rational level.
* `Instant`/`Duration` timestamps are embedded as `ℕ` microsecond (or second)
  counts; `x.elapsed() >= d` becomes `now - x ≥ d` with a single `now` per
  loop iteration.
* `VecDeque` front is the list head; `pop_front` drops the head,
  `push_back` appends.
* `BTreeMap` is an association list whose keys appear in strictly
  ascending order; `range(k..).next()` is `List.find?` of the first entry
  with key ≥ k; `iter()` is list order.
* Rust `Iterator::max_by` returns the *last* maximal element on ties; it is
  embedded as a left fold that replaces the accumulator unless it is
  strictly greater than the new element.
-/

namespace CyanSkillfish

/-! ### Constants from `src/lib.rs` (`pub mod constants`) -/

def MIN_FREQ_MHZ : ℕ := 350

def MAX_FREQ_MHZ : ℕ := 2000

def FREQ_STEP_MHZ : ℕ := 50

def MIN_VOLTAGE_MV : ℕ := 700

def MAX_VOLTAGE_MV : ℕ := 1000

def HIGH_LOAD_THRESHOLD : ℚ := 80

def LOW_LOAD_THRESHOLD : ℚ := 40

def SAMPLE_WINDOW_SIZE : ℕ := 100

def MIN_CHANGE_INTERVAL_SECS : ℕ := 2

def LEARNING_DURATION_SECS : ℕ := 120

def PROCESS_STABILITY_SECS : ℕ := 10

def LEARNING_HISTORY_SIZE : ℕ := 200

def SATURATION_HISTORY_SIZE : ℕ := 6000

def MIN_GPU_USAGE_PERCENT : ℚ := 5

def PROCESS_SWITCH_RATIO : ℚ := 2

/-! ### `GpuStats` from `src/main.rs` (sliding window with O(1) counter) -/

/-- Number of `true` samples in a buffer. -/
def countTrue (l : List Bool) : ℕ := (l.filter id).length

structure GpuStats where
  samples : List Bool
  window_size : ℕ
  active_count : ℕ
deriving Repr, DecidableEq

def GpuStats.new (window_size : ℕ) : GpuStats :=
  { samples := [], window_size := window_size, active_count := 0 }

/-- Rust `GpuStats::add_sample`: evict the oldest sample when full (decrementing
the counter if it was active: `pop_front` is `head?`/`tail`), then append
the new one. -/
def GpuStats.add_sample (s : GpuStats) (is_active : Bool) : GpuStats :=
  let s' :=
    if s.samples.length ≥ s.window_size then
      { s with samples := s.samples.tail,
               active_count :=
                 if s.samples.head? = some true then s.active_count - 1 else s.active_count }
    else s
  { s' with samples := s'.samples ++ [is_active],
            active_count := if is_active then s'.active_count + 1 else s'.active_count }

/-- Rust `GpuStats::gpu_percent`. -/
def GpuStats.gpu_percent (s : GpuStats) : ℚ :=
  if s.samples.isEmpty then 0
  else ((s.active_count : ℚ) / (s.samples.length : ℚ)) * 100

/-! ### `GpuLoadMonitor` from `src/load_monitor.rs` -/

structure GpuLoadMonitor where
  samples : List Bool
  capacity : ℕ
deriving Repr, DecidableEq

def GpuLoadMonitor.new (capacity : ℕ) : GpuLoadMonitor :=
  { samples := [], capacity := capacity }

/-- Rust `GpuLoadMonitor::add_sample`. -/
def GpuLoadMonitor.add_sample (m : GpuLoadMonitor) (is_active : Bool) : GpuLoadMonitor :=
  let m' :=
    if m.samples.length ≥ m.capacity then
      { m with samples := m.samples.tail }
    else m
  { m' with samples := m'.samples ++ [is_active] }

/-- Rust `GpuLoadMonitor::load_percent` (recounts the active samples each call). -/
def GpuLoadMonitor.load_percent (m : GpuLoadMonitor) : ℚ :=
  if m.samples.isEmpty then 0
  else ((countTrue m.samples : ℚ) / (m.samples.length : ℚ)) * 100

/-- Rust `GpuLoadMonitor::is_full`. -/
def GpuLoadMonitor.is_full (m : GpuLoadMonitor) : Bool :=
  m.samples.length ≥ m.capacity

/-! ### Invariant lemmas for the load window -/

/-- The inductive invariant of `GpuStats`: the buffer respects the capacity
and the counter counts exactly the `true` samples. -/
def GpuStatsInv (s : GpuStats) : Prop :=
  s.samples.length ≤ s.window_size ∧ s.active_count = countTrue s.samples

/-! ### Safe-point voltage lookup from `src/main.rs` (`jh_set`)

`safe_points : BTreeMap<u16, u16>` maps frequency (MHz) to voltage (mV);
construction rejects duplicate keys and non-monotone voltages, so the
association list has strictly ascending keys and non-decreasing voltages. -/

/-- Well-formedness enforced at configuration load: strictly ascending
frequencies, non-decreasing voltages. -/
def SafePointsWF (sp : List (ℕ × ℕ)) : Prop :=
  sp.Pairwise (fun p q => p.1 < q.1 ∧ p.2 ≤ q.2)

/-- Rust `safe_points.range(freq..).next()`: first entry (in ascending key
order) whose frequency is ≥ `freq`. -/
def rangeNext (sp : List (ℕ × ℕ)) (freq : ℕ) : Option (ℕ × ℕ) :=
  sp.find? (fun p => freq ≤ p.1)

/-- The voltage `jh_set` selects for a requested frequency; `none` is the
"tried to set a frequency beyond max safe point" error path. -/
def lookupVoltage (sp : List (ℕ × ℕ)) (freq : ℕ) : Option ℕ :=
  (rangeNext sp freq).map Prod.snd

/-! ### Ramp-governor loop body from `src/main.rs` (`jh_gov`)

One loop iteration, with `Instant::now()` modelled as a single `now`
timestamp (µs) per tick and `x.elapsed() ≥ d` as `now - x ≥ d`. -/

/-- Configuration options of the ramp governor (validated values). -/
structure RampConfig where
  sampling_interval : ℕ    -- µs (u16, positive)
  adjustment_interval : ℕ  -- µs
  finetune_interval : ℕ    -- µs
  optimize_interval : ℕ    -- µs, 0 = disabled
  burst_mask : Option ℕ    -- u64 bit mask, none = burst disabled
  ramp_rate : ℚ            -- MHz/ms
  ramp_rate_burst : ℚ      -- MHz/ms
  small_change : ℕ         -- MHz
  significant_change : ℕ   -- MHz
  up_thresh : ℚ            -- percent
  down_thresh : ℚ          -- percent
  min_freq : ℕ             -- MHz
  max_freq : ℕ             -- MHz
deriving Repr

/-- Rust `let optimize_enabled = optimize_interval > 0`. -/
def RampConfig.optimize_enabled (c : RampConfig) : Bool := c.optimize_interval > 0

/-- Mutable loop state of `jh_gov`. -/
structure GovState where
  curr_freq : ℕ        -- u16 MHz
  target_freq : ℚ      -- f32 MHz
  samples : ℕ          -- u64 shift register (kept < 2^64)
  stats : GpuStats
  last_adjustment : ℕ  -- timestamps, µs
  last_finetune : ℕ
  last_freq_change : ℕ
deriving Repr

/-- Rust `u16::abs_diff`. -/
def absDiff (a b : ℕ) : ℕ := max a b - min a b

/-- Rust `f32::clamp(min, max)` (for `min ≤ max`). -/
def clampQ (lo hi x : ℚ) : ℚ := if x < lo then lo else if x > hi then hi else x

/-- Rust `target_freq as u16` for a value already clamped into the u16 range:
the float-to-int cast truncates toward zero. -/
def quantize (q : ℚ) : ℕ := q.floor.toNat

/-- Rust `samples <<= 1; if gui_busy { samples |= 1 }` on a u64. -/
def govSamples (s : GovState) (gui_busy : Bool) : ℕ :=
  ((s.samples <<< 1) ||| (if gui_busy then 1 else 0)) % 2 ^ 64

/-- Rust `burst_mask.map(|mask| samples & mask == mask).unwrap_or(false)`. -/
def burstDetect (c : RampConfig) (samples : ℕ) : Bool :=
  match c.burst_mask with
  | some mask => samples &&& mask == mask
  | none => false

/-- The target-frequency update of one tick (translated line by line from
`jh_gov`), already clamped to `[min_freq, max_freq]`. -/
def govTarget (c : RampConfig) (now : ℕ) (gui_busy : Bool) (s : GovState) : ℚ :=
  let stats := s.stats.add_sample gui_busy
  let gpu_percent := stats.gpu_percent
  let burst := burstDetect c (govSamples s gui_busy)
  let in_stable_zone := c.down_thresh ≤ gpu_percent ∧ gpu_percent ≤ c.up_thresh
  let stable_duration := now - s.last_freq_change
  let can_optimize := c.optimize_enabled = true ∧ in_stable_zone ∧
    stable_duration ≥ c.optimize_interval ∧ gpu_percent < c.up_thresh - 2
  let target_freq :=
    if burst then
      s.target_freq + c.ramp_rate_burst * (c.sampling_interval : ℚ) / 1000
    else if gpu_percent > c.up_thresh then
      s.target_freq + c.ramp_rate * (c.sampling_interval : ℚ) / 1000
    else if gpu_percent < c.down_thresh then
      s.target_freq - c.ramp_rate * (c.sampling_interval : ℚ) / 1000
    else if can_optimize then
      s.target_freq - c.ramp_rate * (1 / 10) * (c.sampling_interval : ℚ) / 1000
    else s.target_freq
  clampQ (c.min_freq : ℚ) (c.max_freq : ℚ) target_freq

/-- One full iteration of the `jh_gov` loop body: returns the new state and
the frequency published to the actuator channel, if any. -/
def govStep (c : RampConfig) (now : ℕ) (gui_busy : Bool) (s : GovState) :
    GovState × Option ℕ :=
  let stats := s.stats.add_sample gui_busy
  let samples := govSamples s gui_busy
  let burst := burstDetect c samples
  let target := govTarget c now gui_busy s
  let adj_now := now - s.last_adjustment ≥ c.adjustment_interval
  if adj_now ∨ burst = true then
    let target_u16 := quantize target
    let hit_bounds := target_u16 ≠ s.curr_freq ∧
      (target_u16 = c.min_freq ∨ target_u16 = c.max_freq)
    let big_change := absDiff s.curr_freq target_u16 ≥ c.significant_change
    let finetune := now - s.last_finetune ≥ c.finetune_interval ∧
      absDiff s.curr_freq target_u16 ≥ c.small_change
    let burst_up := burst = true ∧ s.curr_freq ≠ target_u16
    if hit_bounds ∨ big_change ∨ finetune ∨ burst_up then
      ({ curr_freq := target_u16, target_freq := target, samples := samples,
         stats := stats, last_adjustment := now, last_finetune := now,
         last_freq_change := now }, some target_u16)
    else
      ({ s with target_freq := target, samples := samples, stats := stats,
                last_adjustment := now }, none)
  else
    ({ s with target_freq := target, samples := samples, stats := stats }, none)

/-- Second definition, following the words of claim C2 (the four rules in
priority order, then clamping); to be compared with `govTarget`. -/
def govTargetSpec (c : RampConfig) (now : ℕ) (gui_busy : Bool) (s : GovState) : ℚ :=
  let gpu_percent := (s.stats.add_sample gui_busy).gpu_percent
  let burst := burstDetect c (govSamples s gui_busy)
  let target :=
    if burst then
      s.target_freq + c.ramp_rate_burst * (c.sampling_interval : ℚ) / 1000
    else if gpu_percent > c.up_thresh then
      s.target_freq + c.ramp_rate * (c.sampling_interval : ℚ) / 1000
    else if gpu_percent < c.down_thresh then
      s.target_freq - c.ramp_rate * (c.sampling_interval : ℚ) / 1000
    else if c.optimize_enabled = true ∧ now - s.last_freq_change ≥ c.optimize_interval ∧
        gpu_percent < c.up_thresh - 2 then
      s.target_freq - (1 / 10) * c.ramp_rate * (c.sampling_interval : ℚ) / 1000
    else s.target_freq
  clampQ (c.min_freq : ℚ) (c.max_freq : ℚ) target

/-- A concrete (default-valued) ramp configuration with burst disabled,
used to instantiate `rampWrite_iff`. -/
def cfgW : RampConfig :=
  { sampling_interval := 2000, adjustment_interval := 20000,
    finetune_interval := 100000000, optimize_interval := 30000000,
    burst_mask := none, ramp_rate := 1, ramp_rate_burst := 50,
    small_change := 10, significant_change := 100,
    up_thresh := 90, down_thresh := 80, min_freq := 350, max_freq := 2000 }

/-- A concrete freshly-initialized governor state. -/
def govW : GovState :=
  { curr_freq := 350, target_freq := 350, samples := 0,
    stats := GpuStats.new 100, last_adjustment := 0, last_finetune := 0,
    last_freq_change := 0 }

/-! ### Rust `Iterator::max_by` (ties keep the *last* maximal element) -/

/-- Rust `iter.max_by(cmp)` once the accumulator is seeded: the accumulator is
kept only when strictly greater than the next element (`cmp::max_by`
returns the second argument on `Equal`). -/
def max1 {α : Type} (key : α → ℚ) (m : α) (l : List α) : α :=
  l.foldl (fun acc x => if key acc > key x then acc else x) m

/-- Rust `iter.max_by(cmp)`. -/
def maxByLast {α : Type} (key : α → ℚ) : List α → Option α
  | [] => none
  | x :: l => some (max1 key x l)

/-! ### `FrequencyStats` and `LearningStats` from `src/governor.rs` -/

/-- Per-candidate-frequency learning record (`Instant`/`Duration` embedded
as µs counts). -/
structure FrequencyStats where
  time_spent : ℕ
  load_samples : List ℚ
  last_entry : Option ℕ
deriving Repr, DecidableEq

/-- Rust `FrequencyStats::new` (the `_freq_mhz` argument is unused in the source). -/
def FrequencyStats.new : FrequencyStats :=
  { time_spent := 0, load_samples := [], last_entry := none }

/-- Rust `FrequencyStats::enter`. -/
def FrequencyStats.enter (s : FrequencyStats) (now : ℕ) : FrequencyStats :=
  { s with last_entry := some now }

/-- Rust `FrequencyStats::exit`. -/
def FrequencyStats.exit (s : FrequencyStats) (now : ℕ) : FrequencyStats :=
  match s.last_entry with
  | some entry_time => { s with time_spent := s.time_spent + (now - entry_time),
                                last_entry := none }
  | none => s

/-- Rust `FrequencyStats::add_load_sample`. -/
def FrequencyStats.add_load_sample (s : FrequencyStats) (load : ℚ) : FrequencyStats :=
  { s with load_samples := s.load_samples ++ [load] }

/-- Rust `FrequencyStats::average_load`. -/
def FrequencyStats.average_load (s : FrequencyStats) : ℚ :=
  if s.load_samples.isEmpty then 0
  else s.load_samples.sum / (s.load_samples.length : ℚ)

/-- Rust `FrequencyStats::comfort_score`: `(100 − |average − 70|).max(0)`. -/
def FrequencyStats.comfort_score (s : FrequencyStats) : ℚ :=
  max (100 - |s.average_load - 70|) 0

/-- The candidate grid built by `LearningStats::new`'s
`while freq <= MAX_FREQ_MHZ { ...; freq += FREQ_STEP_MHZ }` loop:
350, 400, …, 2000 MHz. -/
def gridFreqs : List ℕ :=
  (List.range 34).map (fun i => MIN_FREQ_MHZ + FREQ_STEP_MHZ * i)

/-- Rust `BTreeMap<u16, FrequencyStats>` as an association list in ascending
key order, plus the `current_freq` register. -/
structure LearningStats where
  stats : List (ℕ × FrequencyStats)
  current_freq : Option ℕ
deriving Repr, DecidableEq

/-- Rust `LearningStats::new`. -/
def LearningStats.new : LearningStats :=
  { stats := gridFreqs.map (fun f => (f, FrequencyStats.new)), current_freq := none }

/-- Rust `stats.get_mut(&k)` followed by a mutation: a no-op when the key is
absent (`if let Some(stat) = ... { ... }`). -/
def updateEntry (l : List (ℕ × FrequencyStats)) (k : ℕ)
    (f : FrequencyStats → FrequencyStats) : List (ℕ × FrequencyStats) :=
  l.map (fun p => if p.1 = k then (p.1, f p.2) else p)

/-- Rust `stats.get(&k)` (`BTreeMap` keys are unique). -/
def lookupStat (l : List (ℕ × FrequencyStats)) (k : ℕ) : Option FrequencyStats :=
  (l.find? (fun p => p.1 = k)).map Prod.snd

/-- Rust `LearningStats::set_frequency`. -/
def LearningStats.set_frequency (ls : LearningStats) (freq : ℕ) (load : ℚ)
    (now : ℕ) : LearningStats :=
  let stats :=
    match ls.current_freq with
    | some prev_freq => updateEntry ls.stats prev_freq (fun st => st.exit now)
    | none => ls.stats
  let stats := updateEntry stats freq (fun st => (st.enter now).add_load_sample load)
  { stats := stats, current_freq := some freq }

/-- Rust `LearningStats::add_load_sample`. -/
def LearningStats.add_load_sample (ls : LearningStats) (load : ℚ) : LearningStats :=
  match ls.current_freq with
  | some freq => { ls with stats := updateEntry ls.stats freq (fun st => st.add_load_sample load) }
  | none => ls

/-- Rust `LearningStats::get_best_frequency`: filter ≥ 5 samples, then
`max_by` on the comfort score (ascending map order, ties keep the last =
highest frequency). -/
def LearningStats.get_best_frequency (ls : LearningStats) : Option (ℕ × ℚ × ℕ) :=
  (maxByLast (fun p => p.2.comfort_score)
      (ls.stats.filter (fun p => p.2.load_samples.length ≥ 5))).map
    (fun p => (p.1, p.2.comfort_score, p.2.load_samples.length))

/-- Second definition, following the words of claim C3: same filter and
maximum, but ties broken in favour of the *lower* frequency (the first
maximal element in ascending map order); to be compared with
`LearningStats.get_best_frequency`. -/
def get_best_frequency_lowTie (ls : LearningStats) : Option (ℕ × ℚ × ℕ) :=
  ((ls.stats.filter (fun p => p.2.load_samples.length ≥ 5)).foldl
      (fun acc x => match acc with
        | none => some x
        | some m => if x.2.comfort_score > m.2.comfort_score then some x else some m)
      none).map
    (fun p => (p.1, p.2.comfort_score, p.2.load_samples.length))

/-- The state reached from `LearningStats::new` by recording five load
samples of 60 % at 350 MHz and five of 80 % at 400 MHz: both candidate
frequencies end with comfort score 90. -/
def tieState : LearningStats :=
  (((((((((LearningStats.new.set_frequency 350 60 0).add_load_sample 60).add_load_sample
      60).add_load_sample 60).add_load_sample 60).set_frequency 400 80 1).add_load_sample
      80).add_load_sample 80).add_load_sample 80).add_load_sample 80

/-! ### `ProcessAwareGovernor` from `src/governor.rs` and the Applied
branch of `examples/process_aware_governor.rs` -/

inductive GovernorMode
  | Idle
  | Applied
  | Learning
  | Reevaluating
deriving Repr, DecidableEq

/-- The governor state fields used by saturation/underload checking. -/
structure ProcessAwareGovernor where
  current_freq : ℕ
  mode : GovernorMode
  load_history : List ℚ
deriving Repr

/-- Rust `ProcessAwareGovernor::average_load`. -/
def ProcessAwareGovernor.average_load (g : ProcessAwareGovernor) : ℚ :=
  if g.load_history.isEmpty then 0
  else g.load_history.sum / (g.load_history.length : ℚ)

/-- Rust `ProcessAwareGovernor::check_saturation`. -/
def ProcessAwareGovernor.check_saturation (g : ProcessAwareGovernor) : Prop :=
  g.mode = GovernorMode.Applied ∧
    SATURATION_HISTORY_SIZE ≤ g.load_history.length ∧
    HIGH_LOAD_THRESHOLD < g.average_load

/-- Rust `ProcessAwareGovernor::check_underload`. -/
def ProcessAwareGovernor.check_underload (g : ProcessAwareGovernor) : Prop :=
  g.mode = GovernorMode.Applied ∧
    SATURATION_HISTORY_SIZE ≤ g.load_history.length ∧
    g.average_load < LOW_LOAD_THRESHOLD

instance (g : ProcessAwareGovernor) : Decidable g.check_saturation := by
  unfold ProcessAwareGovernor.check_saturation
  infer_instance

instance (g : ProcessAwareGovernor) : Decidable g.check_underload := by
  unfold ProcessAwareGovernor.check_underload
  infer_instance

/-- The Applied-mode branch of the example's main loop: `start_reevaluation`
is called iff `check_saturation() && is_process_stable()` holds and the
tracked process has a stored profile, or — failing that test — iff
`check_underload() && is_process_stable()` holds and the profile exists. -/
def AppliedReevalTrigger (g : ProcessAwareGovernor) (stable hasProfile : Prop) : Prop :=
  (g.check_saturation ∧ stable) ∧ hasProfile ∨
    ¬(g.check_saturation ∧ stable) ∧ (g.check_underload ∧ stable) ∧ hasProfile

/-- An Applied-mode governor whose full 60 s load history sits at a
constant 85 % load. -/
def govAt85 : ProcessAwareGovernor :=
  { current_freq := 1000, mode := GovernorMode.Applied,
    load_history := List.replicate 6000 85 }

/-! ### Actuation traces: `jh_set` (`src/main.rs`) and `set_gpu_frequency`
(`examples/process_aware_governor.rs`) -/

/-- The observable I/O actions on the `pp_od_clk_voltage` file handle. -/
inductive IoEvent
  | write (s : String)
  | flush
deriving Repr, DecidableEq

/-- Rust `interpolate_voltage` from `examples/process_aware_governor.rs`
(the `% 2 ^ 16` is the `as u16` cast of the u32 quotient). -/
def interpolate_voltage (freq : ℕ) : ℕ :=
  if freq ≤ MIN_FREQ_MHZ then MIN_VOLTAGE_MV
  else if freq ≥ MAX_FREQ_MHZ then MAX_VOLTAGE_MV
  else
    let freq_range := MAX_FREQ_MHZ - MIN_FREQ_MHZ
    let voltage_range := MAX_VOLTAGE_MV - MIN_VOLTAGE_MV
    let freq_offset := freq - MIN_FREQ_MHZ
    MIN_VOLTAGE_MV + (freq_offset * voltage_range / freq_range) % 2 ^ 16

/-- The byte sequence one `jh_set` actuation writes:
`write_all(format!("vc 0 {freq} {vol}"))` then `write_all("c")` —
no trailing newlines, no flush call. -/
def jh_set_actuation (freq vol : ℕ) : List IoEvent :=
  [IoEvent.write ("vc 0 " ++ toString freq ++ " " ++ toString vol),
   IoEvent.write ("c")]

/-- The I/O trace of one `set_gpu_frequency` call in the example:
two newline-terminated writes, then a single flush. -/
def set_gpu_frequency_events (freq : ℕ) : List IoEvent :=
  let voltage := interpolate_voltage freq
  [IoEvent.write ("vc 0 " ++ toString freq ++ " " ++ toString voltage ++ "\n"),
   IoEvent.write ("c\n"),
   IoEvent.flush]

/-- The actuation trace asserted by claim C5: newline-terminated command
and commit, each write followed by its own flush. -/
def claimedActuation (freq vol : ℕ) : List IoEvent :=
  [IoEvent.write ("vc 0 " ++ toString freq ++ " " ++ toString vol ++ "\n"),
   IoEvent.flush,
   IoEvent.write ("c\n"),
   IoEvent.flush]

/-- Discriminator for `IoEvent.write`, as a Bool. -/
def IoEvent.isWrite : IoEvent → Bool
  | IoEvent.write _ => true
  | IoEvent.flush => false

/-! ### Exclusion list and dominant-process selection
(`src/process_detection.rs`, `src/process_monitor.rs`) -/

/-- Rust `EXCLUDED_PROCESSES` from `src/process_detection.rs`. -/
def EXCLUDED_PROCESSES : List String :=
  ["kwin_wayland", "kwin", "Xwayland", "ksmserver", "plasmashell", "kaccess",
   "plasma", "steam", "steamwebhelper", "Discord", "code", "electron",
   "chrome", "firefox", "chromium", "gnome-shell", "mutter", "xfwm4",
   "marco", "coolercontrol", "systemsettings"]

/-- Split a character list on `'/'` (structural embedding of the path
component split underlying `Path::file_name`). -/
def splitChars : List Char → List (List Char)
  | [] => [[]]
  | c :: rest =>
      let r := splitChars rest
      if c = '/' then [] :: r
      else
        match r with
        | [] => [[c]]
        | x :: xs => (c :: x) :: xs

/-- Rust `Path::new(name).file_name()`: the last path component, skipping empty
components and `"."`, and `none` when the path ends in `".."` (or has no
component at all). -/
def rustFileName (s : String) : Option String :=
  let comps := (splitChars s.toList).filter (fun c => c ≠ [] ∧ c ≠ ['.'])
  match comps.getLast? with
  | some last => if last = ['.', '.'] then none else some (String.mk last)
  | none => none

/-- Rust `is_excluded_process`: exact-basename match against the static list
(`file_name().and_then(to_str).unwrap_or(name)`). -/
def is_excluded_process (name : String) : Bool :=
  let basename := (rustFileName name).getD name
  EXCLUDED_PROCESSES.any (fun excluded => basename == excluded)

/-- The dominant-process selection of `ProcessMonitor::update`, given the
per-scan `(name, usage_percent)` deltas: filter to significant,
non-excluded processes, pick the highest usage (`max_by`), then apply the
switch-ratio rule. Returns the new `current_process`. -/
def updateTracked (current : Option String) (deltas : List (String × ℚ)) :
    Option String :=
  if deltas.isEmpty then none
  else
    let active := deltas.filter
      (fun d => MIN_GPU_USAGE_PERCENT ≤ d.2 ∧ is_excluded_process d.1 = false)
    if active.isEmpty then none
    else
      match maxByLast Prod.snd active with
      | some dominant =>
        let should_change : Bool :=
          match current with
          | some cur =>
            if cur ≠ dominant.1 then
              let current_usage := ((deltas.find? (fun d => d.1 = cur)).map Prod.snd).getD 0
              decide (current_usage = 0) ||
                decide ( PROCESS_SWITCH_RATIO ≤ dominant.2 / max current_usage (1 / 10))
            else false
          | none => true
        if should_change then some dominant.1 else current
      | none => current

/-- One `ProcessMonitor::update` call: when the 1 s rescan interval has
not elapsed (`scan = none`) the tracked process is returned unchanged;
otherwise the scan's deltas drive `updateTracked`. -/
def monitorStep (current : Option String) (scan : Option (List (String × ℚ))) :
    Option String :=
  match scan with
  | none => current
  | some deltas => updateTracked current deltas

/-! ### C10: `LearningStats` keeps statistics only on the frequency grid -/

/-- The two mutating operations a governor performs on `LearningStats`. -/
inductive LOp
  | set (freq : ℕ) (load : ℚ) (now : ℕ)
  | add (load : ℚ)

def LearningStats.applyOp (ls : LearningStats) : LOp → LearningStats
  | LOp.set freq load now => ls.set_frequency freq load now
  | LOp.add load => ls.add_load_sample load

/-- Any `LearningStats` state reached from `new` by a sequence of
operations. -/
def applyOps (ops : List LOp) : LearningStats :=
  ops.foldl LearningStats.applyOp LearningStats.new

/-! ### Lemmas and claim theorems -/

lemma countTrue_nil : countTrue [] = 0 := rfl

lemma countTrue_cons (b : Bool) (l : List Bool) :
    countTrue (b :: l) = (if b then 1 else 0) + countTrue l := by
  cases b
  · simp [countTrue, List.filter]
  · simp [countTrue, List.filter]
    omega

lemma countTrue_append (l₁ l₂ : List Bool) :
    countTrue (l₁ ++ l₂) = countTrue l₁ + countTrue l₂ := by
  simp [countTrue, List.filter_append]

lemma GpuStats.add_sample_inv {s : GpuStats} (hw : 1 ≤ s.window_size)
    (h : GpuStatsInv s) (b : Bool) : GpuStatsInv (s.add_sample b) := by
  obtain ⟨hlen, hcount⟩ := h
  unfold GpuStats.add_sample
  by_cases hfull : s.samples.length ≥ s.window_size
  · have hne : s.samples ≠ [] := by
      intro hnil
      rw [hnil] at hfull
      simp only [List.length_nil] at hfull
      omega
    obtain ⟨old, rest, hsplit⟩ := List.exists_cons_of_ne_nil hne
    simp only [if_pos hfull]
    rw [hsplit] at hlen hcount ⊢
    rw [countTrue_cons] at hcount
    constructor
    · simp only [List.tail_cons, List.length_append, List.length_cons, List.length_nil]
      simp only [List.length_cons] at hlen
      omega
    · cases old <;> cases b <;>
        (simp only [List.tail_cons, List.head?_cons, countTrue_append, countTrue_cons,
          countTrue_nil, if_true, if_false, reduceCtorEq, Option.some.injEq] at hcount ⊢
         simp_all
         try omega)
  · simp only [if_neg hfull]
    constructor
    · simp only [List.length_append, List.length_cons, List.length_nil]
      push_neg at hfull
      omega
    · cases b <;> simp [countTrue_append, countTrue_cons, countTrue_nil, hcount]

lemma GpuStats.add_sample_window (s : GpuStats) (b : Bool) :
    (s.add_sample b).window_size = s.window_size := by
  unfold GpuStats.add_sample
  by_cases hfull : s.samples.length ≥ s.window_size
  · simp [if_pos hfull]
  · simp [if_neg hfull]

lemma GpuStats.foldl_window (ops : List Bool) (s : GpuStats) :
    (ops.foldl GpuStats.add_sample s).window_size = s.window_size := by
  induction ops generalizing s with
  | nil => rfl
  | cons b rest ih => simp [List.foldl_cons, ih, GpuStats.add_sample_window]

lemma GpuStats.foldl_inv (ops : List Bool) (s : GpuStats) (hw : 1 ≤ s.window_size)
    (h : GpuStatsInv s) : GpuStatsInv (ops.foldl GpuStats.add_sample s) := by
  induction ops generalizing s with
  | nil => exact h
  | cons b rest ih =>
    simp only [List.foldl_cons]
    exact ih _ (by rw [GpuStats.add_sample_window]; exact hw)
      (GpuStats.add_sample_inv hw h b)

/-- The monitor (`load_monitor.rs`) and the stats window (`main.rs`) evolve
the same sample buffer when fed the same stream and capacities agree. -/
lemma monitor_samples_eq (ops : List Bool) (w : ℕ) :
    (ops.foldl GpuLoadMonitor.add_sample (GpuLoadMonitor.new w)).samples =
      (ops.foldl GpuStats.add_sample (GpuStats.new w)).samples := by
  suffices h : ∀ (m : GpuLoadMonitor) (s : GpuStats), m.samples = s.samples →
      m.capacity = s.window_size →
      (ops.foldl GpuLoadMonitor.add_sample m).samples =
        (ops.foldl GpuStats.add_sample s).samples by
    exact h _ _ rfl rfl
  induction ops with
  | nil => intro m s hs _; exact hs
  | cons b rest ih =>
    intro m s hs hc
    simp only [List.foldl_cons]
    apply ih
    · unfold GpuLoadMonitor.add_sample GpuStats.add_sample
      by_cases hfull : s.samples.length ≥ s.window_size
      · rw [hs, hc]
        simp [if_pos hfull]
      · rw [hs, hc]
        simp only [if_neg hfull]
        simp [hs, hc]
    · unfold GpuLoadMonitor.add_sample GpuStats.add_sample
      by_cases hfull : s.samples.length ≥ s.window_size
      · rw [hs, hc]
        simp [if_pos hfull]
      · rw [hs, hc]
        simp only [if_neg hfull]
        simp [hs, hc]

lemma load_percent_eq_gpu_percent {m : GpuLoadMonitor} {s : GpuStats}
    (hsam : m.samples = s.samples) (hcnt : s.active_count = countTrue s.samples) :
    m.load_percent = s.gpu_percent := by
  unfold GpuLoadMonitor.load_percent GpuStats.gpu_percent
  rw [hsam, hcnt]

/-- C7: after any sequence of `add_sample` operations on a load window of
capacity `W ≥ 1` (the capacity is validated positive at configuration
load), the stored samples never exceed `W`, `active_count` equals the
number of `true` samples currently stored, `gpu_percent` is
`active_count / len * 100` (0 when empty), and the recounting
`GpuLoadMonitor` of `load_monitor.rs` holds the same buffer and reports
the same percentage. -/
theorem loadWindow_invariant (ops : List Bool) (w : ℕ) (hw : 1 ≤ w) :
    (ops.foldl GpuStats.add_sample (GpuStats.new w)).samples.length ≤ w ∧
    (ops.foldl GpuStats.add_sample (GpuStats.new w)).active_count =
      countTrue (ops.foldl GpuStats.add_sample (GpuStats.new w)).samples ∧
    (ops.foldl GpuStats.add_sample (GpuStats.new w)).gpu_percent =
      (if (ops.foldl GpuStats.add_sample (GpuStats.new w)).samples.isEmpty then 0
       else (((ops.foldl GpuStats.add_sample (GpuStats.new w)).active_count : ℚ) /
         ((ops.foldl GpuStats.add_sample (GpuStats.new w)).samples.length : ℚ)) * 100) ∧
    (ops.foldl GpuLoadMonitor.add_sample (GpuLoadMonitor.new w)).samples =
      (ops.foldl GpuStats.add_sample (GpuStats.new w)).samples ∧
    (ops.foldl GpuLoadMonitor.add_sample (GpuLoadMonitor.new w)).load_percent =
      (ops.foldl GpuStats.add_sample (GpuStats.new w)).gpu_percent := by
  have hwin := GpuStats.foldl_window ops (GpuStats.new w)
  have hinv := GpuStats.foldl_inv ops (GpuStats.new w) hw ⟨by simp [GpuStats.new], rfl⟩
  obtain ⟨h1, h2⟩ := hinv
  have hsam := monitor_samples_eq ops w
  refine ⟨by rw [hwin] at h1; exact h1, h2, rfl, hsam, ?_⟩
  exact load_percent_eq_gpu_percent hsam h2

/-- Witness for `loadWindow_invariant` at `W = 2`,
`ops = [true, false, true]`. -/
theorem loadWindow_invariant_witness :
    1 ≤ 2 ∧
    (([true, false, true].foldl GpuStats.add_sample (GpuStats.new 2)).samples.length ≤ 2 ∧
     ([true, false, true].foldl GpuStats.add_sample (GpuStats.new 2)).active_count =
       countTrue ([true, false, true].foldl GpuStats.add_sample (GpuStats.new 2)).samples ∧
     ([true, false, true].foldl GpuStats.add_sample (GpuStats.new 2)).gpu_percent =
       (if ([true, false, true].foldl GpuStats.add_sample (GpuStats.new 2)).samples.isEmpty then 0
        else ((([true, false, true].foldl GpuStats.add_sample (GpuStats.new 2)).active_count : ℚ) /
          ((([true, false, true].foldl GpuStats.add_sample (GpuStats.new 2)).samples.length : ℚ))) * 100) ∧
     ([true, false, true].foldl GpuLoadMonitor.add_sample (GpuLoadMonitor.new 2)).samples =
       ([true, false, true].foldl GpuStats.add_sample (GpuStats.new 2)).samples ∧
     ([true, false, true].foldl GpuLoadMonitor.add_sample (GpuLoadMonitor.new 2)).load_percent =
       ([true, false, true].foldl GpuStats.add_sample (GpuStats.new 2)).gpu_percent) :=
  ⟨by norm_num, loadWindow_invariant [true, false, true] 2 (by norm_num)⟩

lemma rangeNext_cons_pos {r : ℕ × ℕ} {tl : List (ℕ × ℕ)} {f : ℕ} (h : f ≤ r.1) :
    rangeNext (r :: tl) f = some r := by
  unfold rangeNext
  rw [List.find?_cons_of_pos]
  simpa using h

lemma rangeNext_cons_neg {r : ℕ × ℕ} {tl : List (ℕ × ℕ)} {f : ℕ} (h : ¬ f ≤ r.1) :
    rangeNext (r :: tl) f = rangeNext tl f := by
  unfold rangeNext
  rw [List.find?_cons_of_neg]
  simpa using h

lemma rangeNext_isSome (sp : List (ℕ × ℕ)) (f : ℕ) (hne : sp ≠ [])
    (hmax : f ≤ (sp.getLast hne).1) : ∃ p, rangeNext sp f = some p := by
  induction sp with
  | nil => exact absurd rfl hne
  | cons p tl ih =>
    by_cases hp : f ≤ p.1
    · exact ⟨p, rangeNext_cons_pos hp⟩
    · cases htl : tl with
      | nil =>
        subst htl
        simp only [List.getLast_singleton] at hmax
        exact absurd hmax hp
      | cons q tl' =>
        have hne' : tl ≠ [] := by rw [htl]; simp
        have hlast : (tl.getLast hne') = ((p :: tl).getLast hne) := by
          rw [List.getLast_cons hne']
        obtain ⟨r, hr⟩ := ih hne' (by rw [hlast]; exact hmax)
        refine ⟨r, ?_⟩
        rw [rangeNext_cons_neg hp, ← htl]
        exact hr

lemma rangeNext_spec (sp : List (ℕ × ℕ)) (f : ℕ) (hwf : SafePointsWF sp)
    {p : ℕ × ℕ} (h : rangeNext sp f = some p) :
    p ∈ sp ∧ f ≤ p.1 ∧ ∀ q ∈ sp, f ≤ q.1 → p.1 ≤ q.1 := by
  induction sp with
  | nil => simp [rangeNext] at h
  | cons r tl ih =>
    rw [SafePointsWF, List.pairwise_cons] at hwf
    by_cases hr : f ≤ r.1
    · have : p = r := by
        rw [rangeNext_cons_pos hr] at h
        exact (Option.some_inj.mp h).symm
      subst this
      refine ⟨List.mem_cons_self _ _, hr, ?_⟩
      intro q hq _
      rcases List.mem_cons.mp hq with hq | hq
      · rw [hq]
      · exact le_of_lt (hwf.1 q hq).1
    · have h' : rangeNext tl f = some p := by
        rw [rangeNext_cons_neg hr] at h
        exact h
      obtain ⟨hmem, hle, hmin⟩ := ih hwf.2 h'
      refine ⟨List.mem_cons_of_mem _ hmem, hle, ?_⟩
      intro q hq hfq
      rcases List.mem_cons.mp hq with hq | hq
      · exact absurd (hq ▸ hfq) hr
      · exact hmin q hq hfq

lemma rangeNext_exact (sp : List (ℕ × ℕ)) (f v : ℕ) (hwf : SafePointsWF sp)
    (hmem : (f, v) ∈ sp) : rangeNext sp f = some (f, v) := by
  induction sp with
  | nil => simp at hmem
  | cons r tl ih =>
    rw [SafePointsWF, List.pairwise_cons] at hwf
    rcases List.mem_cons.mp hmem with hr | htl
    · rw [← hr]
      exact rangeNext_cons_pos le_rfl
    · have hlt : r.1 < f := (hwf.1 _ htl).1
      rw [rangeNext_cons_neg (by omega)]
      exact ih hwf.2 htl

lemma rangeNext_mono (sp : List (ℕ × ℕ)) (hwf : SafePointsWF sp)
    {f₁ f₂ : ℕ} (hle : f₁ ≤ f₂) {p₂ : ℕ × ℕ}
    (h₂ : rangeNext sp f₂ = some p₂) :
    ∃ p₁, rangeNext sp f₁ = some p₁ ∧ p₁.2 ≤ p₂.2 := by
  induction sp with
  | nil => simp [rangeNext] at h₂
  | cons r tl ih =>
    rw [SafePointsWF, List.pairwise_cons] at hwf
    by_cases hr : f₁ ≤ r.1
    · refine ⟨r, rangeNext_cons_pos hr, ?_⟩
      obtain ⟨hmem, _, _⟩ :=
        rangeNext_spec _ _ (show SafePointsWF (r :: tl) from List.pairwise_cons.mpr hwf) h₂
      rcases List.mem_cons.mp hmem with hp | hp
      · rw [hp]
      · exact (hwf.1 _ hp).2
    · have hr₂ : ¬ f₂ ≤ r.1 := fun h => hr (le_trans hle h)
      have h₂' : rangeNext tl f₂ = some p₂ := by
        rw [rangeNext_cons_neg hr₂] at h₂
        exact h₂
      obtain ⟨p₁, hp₁, hv⟩ := ih hwf.2 h₂'
      refine ⟨p₁, ?_, hv⟩
      rw [rangeNext_cons_neg hr]
      exact hp₁

/-- C1: for any target frequency `f` in `[min_freq, max_freq]` (where
`max_freq` does not exceed the highest safe-point frequency, as enforced
in `main`) and a non-empty well-formed safe-point table, `jh_set` selects
the voltage of the smallest safe point whose frequency is ≥ `f` — the
exact table voltage when `f` is itself a safe-point frequency — the
lookup never fails, and the selected voltage is monotonically
non-decreasing in the requested frequency. -/
theorem actuator_voltage_selection (sp : List (ℕ × ℕ)) (min_freq max_freq f : ℕ)
    (hwf : SafePointsWF sp) (hne : sp ≠ [])
    (hmax : max_freq ≤ (sp.getLast hne).1)
    (_hf1 : min_freq ≤ f) (hf2 : f ≤ max_freq) :
    (∃ p, rangeNext sp f = some p ∧ p ∈ sp ∧ f ≤ p.1 ∧
       (∀ q ∈ sp, f ≤ q.1 → p.1 ≤ q.1) ∧ lookupVoltage sp f = some p.2) ∧
    (∀ v, (f, v) ∈ sp → lookupVoltage sp f = some v) ∧
    (∀ f₁ f₂ v₁ v₂, f₁ ≤ f₂ → f₂ ≤ max_freq →
       lookupVoltage sp f₁ = some v₁ → lookupVoltage sp f₂ = some v₂ → v₁ ≤ v₂) := by
  refine ⟨?_, ?_, ?_⟩
  · obtain ⟨p, hp⟩ := rangeNext_isSome sp f hne (le_trans hf2 hmax)
    obtain ⟨hmem, hle, hmin⟩ := rangeNext_spec sp f hwf hp
    exact ⟨p, hp, hmem, hle, hmin, by simp [lookupVoltage, hp]⟩
  · intro v hmem
    simp [lookupVoltage, rangeNext_exact sp f v hwf hmem]
  · intro f₁ f₂ v₁ v₂ h12 _ hv₁ hv₂
    obtain ⟨p₂, hp₂, hup₂⟩ : ∃ p₂, rangeNext sp f₂ = some p₂ ∧ p₂.2 = v₂ := by
      unfold lookupVoltage at hv₂
      cases hr : rangeNext sp f₂ with
      | none => rw [hr] at hv₂; simp at hv₂
      | some p => rw [hr] at hv₂; exact ⟨p, rfl, by simpa using hv₂⟩
    obtain ⟨p₁, hp₁, hvle⟩ := rangeNext_mono sp hwf h12 hp₂
    have : v₁ = p₁.2 := by
      unfold lookupVoltage at hv₁
      rw [hp₁] at hv₁
      simpa using hv₁.symm
    omega

/-- Witness for `actuator_voltage_selection`: the spec's scenario table
{350 ↦ 700, 1000 ↦ 850, 2000 ↦ 1000} at `f = 900` (where the selected
voltage evaluates to 850 mV). -/
theorem actuator_voltage_selection_witness :
    (SafePointsWF [(350, 700), (1000, 850), (2000, 1000)] ∧
     (350 : ℕ) ≤ 900 ∧ (900 : ℕ) ≤ 2000 ∧
     lookupVoltage [(350, 700), (1000, 850), (2000, 1000)] 900 = some 850) ∧
    ((∃ p, rangeNext [(350, 700), (1000, 850), (2000, 1000)] 900 = some p ∧
        p ∈ [(350, 700), (1000, 850), (2000, 1000)] ∧ 900 ≤ p.1 ∧
        (∀ q ∈ [(350, 700), (1000, 850), (2000, 1000)], 900 ≤ q.1 → p.1 ≤ q.1) ∧
        lookupVoltage [(350, 700), (1000, 850), (2000, 1000)] 900 = some p.2) ∧
     (∀ v, (900, v) ∈ [(350, 700), (1000, 850), (2000, 1000)] →
        lookupVoltage [(350, 700), (1000, 850), (2000, 1000)] 900 = some v) ∧
     (∀ f₁ f₂ v₁ v₂, f₁ ≤ f₂ → f₂ ≤ 2000 →
        lookupVoltage [(350, 700), (1000, 850), (2000, 1000)] f₁ = some v₁ →
        lookupVoltage [(350, 700), (1000, 850), (2000, 1000)] f₂ = some v₂ →
        v₁ ≤ v₂)) :=
  ⟨⟨by unfold SafePointsWF; decide, by decide, by decide, by decide⟩,
   actuator_voltage_selection [(350, 700), (1000, 850), (2000, 1000)]
     350 2000 900 (by unfold SafePointsWF; decide) (by decide) (by decide)
     (by decide) (by decide)⟩

/-- C2: on every tick the governor updates `target_freq` by exactly one
rule chosen in priority order — burst, high load, low load, optimization
drift, unchanged — and then clamps to `[min_freq, max_freq]`; this is the
value stored in the post-tick state whether or not a write follows.
(The code's extra `in_stable_zone` conjunct of `can_optimize` is implied
by the failure of the high/low-load branches, so the code coincides with
the claim's rule list.) -/
lemma govStep_target (c : RampConfig) (now : ℕ) (gui_busy : Bool) (s : GovState) :
    (govStep c now gui_busy s).1.target_freq = govTarget c now gui_busy s := by
  simp only [govStep]
  split_ifs <;> rfl

lemma govTargetSpec_eq (c : RampConfig) (now : ℕ) (gui_busy : Bool) (s : GovState) :
    govTargetSpec c now gui_busy s = govTarget c now gui_busy s := by
  simp only [govTargetSpec, govTarget]
  congr 1
  split_ifs with hb hup hdn hspec hcode hcode
  · rfl
  · rfl
  · rfl
  · ring
  · exact absurd ⟨hspec.1, ⟨le_of_not_lt hdn, le_of_not_lt hup⟩, hspec.2.1, hspec.2.2⟩ hcode
  · exact absurd ⟨hcode.1, hcode.2.2.1, hcode.2.2.2⟩ hspec
  · rfl

theorem rampTick_update (c : RampConfig) (now : ℕ) (gui_busy : Bool) (s : GovState) :
    (govStep c now gui_busy s).1.target_freq = govTargetSpec c now gui_busy s ∧
    govTargetSpec c now gui_busy s = govTarget c now gui_busy s :=
  ⟨(govStep_target c now gui_busy s).trans (govTargetSpec_eq c now gui_busy s).symm,
   govTargetSpec_eq c now gui_busy s⟩

/-- C6: an actuator write occurs iff (the adjust interval has elapsed since
the last adjustment OR a burst is detected) AND at least one of: the
quantized target differs from current and equals `min_freq` or `max_freq`;
`|current − target| ≥ significant_change`; the finetune interval has
elapsed and `|current − target| ≥ small_change`; or burst is active with
`current ≠ target`. In particular no write ever occurs when the adjust
interval has not elapsed and no burst is detected. -/
theorem rampWrite_iff (c : RampConfig) (now : ℕ) (gui_busy : Bool) (s : GovState) :
    ((govStep c now gui_busy s).2.isSome = true ↔
      ((c.adjustment_interval ≤ now - s.last_adjustment ∨
          burstDetect c (govSamples s gui_busy) = true) ∧
        ((quantize (govTarget c now gui_busy s) ≠ s.curr_freq ∧
            (quantize (govTarget c now gui_busy s) = c.min_freq ∨
             quantize (govTarget c now gui_busy s) = c.max_freq)) ∨
         c.significant_change ≤ absDiff s.curr_freq (quantize (govTarget c now gui_busy s)) ∨
         (c.finetune_interval ≤ now - s.last_finetune ∧
           c.small_change ≤ absDiff s.curr_freq (quantize (govTarget c now gui_busy s))) ∨
         (burstDetect c (govSamples s gui_busy) = true ∧
           s.curr_freq ≠ quantize (govTarget c now gui_busy s))))) ∧
    (¬ c.adjustment_interval ≤ now - s.last_adjustment ∧
        burstDetect c (govSamples s gui_busy) = false →
      (govStep c now gui_busy s).2 = none) := by
  constructor
  · simp only [govStep]
    split_ifs with h1 h2
    · simp only [Option.isSome_some]
      exact iff_of_true (by trivial) ⟨h1, h2⟩
    · simp only [Option.isSome_none]
      exact iff_of_false (by simp) (fun h => h2 h.2)
    · simp only [Option.isSome_none]
      exact iff_of_false (by simp) (fun h => h1 h.1)
  · intro ⟨ha, hb⟩
    simp only [govStep]
    rw [if_neg]
    rintro (h | h)
    · exact ha h
    · rw [hb] at h
      exact Bool.false_ne_true h

/-- Witness for `rampWrite_iff`: with the adjust interval not elapsed and
no burst, the step publishes nothing. -/
theorem rampWrite_iff_witness :
    (¬ cfgW.adjustment_interval ≤ 0 - govW.last_adjustment ∧
      burstDetect cfgW (govSamples govW true) = false) ∧
    (govStep cfgW 0 true govW).2 = none :=
  ⟨⟨by decide, by decide⟩, (rampWrite_iff cfgW 0 true govW).2 ⟨by decide, by decide⟩⟩

lemma max1_spec {α : Type} (key : α → ℚ) (R : α → α → Prop) (htrans : Transitive R)
    (m : α) (l : List α) (hml : ∀ x ∈ l, R m x) (hl : l.Pairwise R) :
    (max1 key m l = m ∨ max1 key m l ∈ l) ∧
    key m ≤ key (max1 key m l) ∧
    (∀ x ∈ l, key x ≤ key (max1 key m l)) ∧
    (max1 key m l = m ∨ R m (max1 key m l)) ∧
    (∀ x ∈ l, key x = key (max1 key m l) → x = max1 key m l ∨ R x (max1 key m l)) := by
  induction l generalizing m with
  | nil => exact ⟨Or.inl rfl, le_refl _, by simp, Or.inl rfl, by simp⟩
  | cons y rest ih =>
    rw [List.pairwise_cons] at hl
    have hstep : max1 key m (y :: rest) = max1 key (if key m > key y then m else y) rest := by
      unfold max1
      rw [List.foldl_cons]
    set m' := if key m > key y then m else y with hm'
    have hm'cases : m' = m ∨ m' = y := by
      rw [hm']; split_ifs <;> simp
    have hml' : ∀ x ∈ rest, R m' x := by
      intro x hx
      rcases hm'cases with h | h
      · rw [h]; exact hml x (List.mem_cons_of_mem _ hx)
      · rw [h]; exact hl.1 x hx
    obtain ⟨hmem, hge, hall, hrel, htie⟩ := ih m' hml' hl.2
    rw [hstep]
    have hm'le : key m ≤ key m' := by
      rw [hm']; split_ifs with h
      · exact le_refl _
      · exact le_of_not_lt h
    have hyle : key y ≤ key m' := by
      rw [hm']; split_ifs with h
      · exact le_of_lt h
      · exact le_refl _
    refine ⟨?_, le_trans hm'le hge, ?_, ?_, ?_⟩
    · rcases hmem with h | h
      · rcases hm'cases with h' | h'
        · exact Or.inl (h.trans h')
        · exact Or.inr (List.mem_cons.mpr (Or.inl (h.trans h')))
      · exact Or.inr (List.mem_cons_of_mem _ h)
    · intro x hx
      rcases List.mem_cons.mp hx with h | h
      · rw [h]; exact le_trans hyle hge
      · exact hall x h
    · rcases hm'cases with h' | h'
      · rw [h'] at hmem hrel ⊢
        exact hrel
      · have hRmy : R m y := hml y (List.mem_cons_self _ _)
        rcases hrel with h | h
        · rw [h, h']
          exact Or.inr hRmy
        · exact Or.inr (htrans hRmy (h' ▸ h))
    · intro x hx hkey
      rcases List.mem_cons.mp hx with h | h
      · subst h
        by_cases hgt : key m > key x
        · exfalso
          have h'm : m' = m := by rw [hm']; exact if_pos hgt
          have h2 : key m ≤ key (max1 key m' rest) := by rw [← h'm] at hgt ⊢; exact hge
          rw [← hkey] at h2
          exact absurd h2 (not_le_of_lt hgt)
        · have h'y : m' = x := by rw [hm']; exact if_neg hgt
          rcases hrel with h | h
          · exact Or.inl (by rw [h, h'y])
          · refine Or.inr ?_
            rw [← h'y]
            exact h
      · exact htie x h hkey

lemma maxByLast_mem {α : Type} (key : α → ℚ) {l : List α} {m : α}
    (h : maxByLast key l = some m) : m ∈ l := by
  cases l with
  | nil => simp [maxByLast] at h
  | cons x rest =>
    have hpw : rest.Pairwise (fun _ _ => (True : Prop)) := by
      clear h
      induction rest with
      | nil => exact List.Pairwise.nil
      | cons z zs ihz => exact List.Pairwise.cons (fun _ _ => trivial) ihz
    obtain ⟨hmem, _, _, _, _⟩ := max1_spec key (fun _ _ => True)
      (fun _ _ _ _ _ => trivial) x rest (fun _ _ => trivial) hpw
    have hm : max1 key x rest = m := by
      simpa [maxByLast] using h
    rcases hmem with h' | h'
    · rw [← hm, h']; exact List.mem_cons_self _ _
    · rw [← hm]; exact List.mem_cons_of_mem _ h'

lemma pairwise_fst_lt_trans :
    Transitive (fun p q : ℕ × FrequencyStats => p.1 < q.1) :=
  fun _ _ _ h1 h2 => lt_trans h1 h2

/-- C3 (amended): finalization considers only frequencies with ≥ 5
recorded samples, returns `none` exactly when no frequency qualifies, and
otherwise returns the qualifying frequency with the highest comfort
score, breaking ties in favour of the **higher** frequency (Rust
`max_by` keeps the last maximal element of the ascending map
iteration). -/
theorem learning_finalize_best (ls : LearningStats)
    (hsort : ls.stats.Pairwise (fun p q => p.1 < q.1)) :
    (ls.get_best_frequency = none ↔ ∀ p ∈ ls.stats, p.2.load_samples.length < 5) ∧
    (∀ f score n, ls.get_best_frequency = some (f, score, n) →
      ∃ st, (f, st) ∈ ls.stats ∧ 5 ≤ st.load_samples.length ∧
        score = st.comfort_score ∧ n = st.load_samples.length ∧
        ∀ q ∈ ls.stats, 5 ≤ q.2.load_samples.length →
          q.2.comfort_score ≤ st.comfort_score ∧
            (q.2.comfort_score = st.comfort_score → q.1 ≤ f)) := by
  have hpw : (ls.stats.filter (fun p => p.2.load_samples.length ≥ 5)).Pairwise
      (fun p q => p.1 < q.1) := List.Pairwise.sublist (List.filter_sublist _) hsort
  constructor
  · constructor
    · intro h p hp
      by_contra hc
      push_neg at hc
      have hmem : p ∈ ls.stats.filter (fun p => p.2.load_samples.length ≥ 5) :=
        List.mem_filter.mpr ⟨hp, by simpa using hc⟩
      unfold LearningStats.get_best_frequency at h
      cases hfl : ls.stats.filter (fun p => p.2.load_samples.length ≥ 5) with
      | nil => rw [hfl] at hmem; simp at hmem
      | cons x rest => rw [hfl] at h; simp [maxByLast] at h
    · intro h
      unfold LearningStats.get_best_frequency
      have hfl : ls.stats.filter (fun p => p.2.load_samples.length ≥ 5) = [] := by
        rw [List.filter_eq_nil_iff]
        intro p hp
        simpa using h p hp
      rw [hfl]
      rfl
  · intro f score n h
    unfold LearningStats.get_best_frequency at h
    cases hfl : ls.stats.filter (fun p => p.2.load_samples.length ≥ 5) with
    | nil => rw [hfl] at h; simp [maxByLast] at h
    | cons x rest =>
      rw [hfl] at h hpw
      simp only [maxByLast, Option.map_some] at h
      rw [List.pairwise_cons] at hpw
      obtain ⟨hmem, hge, hall, hrel, htie⟩ :=
        max1_spec (fun p => p.2.comfort_score) (fun p q => p.1 < q.1)
          pairwise_fst_lt_trans x rest hpw.1 hpw.2
      set r := max1 (fun p => p.2.comfort_score) x rest with hr
      obtain ⟨hf, hscore, hn⟩ : f = r.1 ∧ score = r.2.comfort_score ∧
          n = r.2.load_samples.length := by
        have := Option.some_inj.mp h
        exact ⟨congrArg (fun t => t.1) this.symm, congrArg (fun t => t.2.1) this.symm,
          congrArg (fun t => t.2.2) this.symm⟩
      have hrfl : r ∈ ls.stats.filter (fun p => p.2.load_samples.length ≥ 5) := by
        rw [hfl]
        rcases hmem with h' | h'
        · rw [h']; exact List.mem_cons_self _ _
        · exact List.mem_cons_of_mem _ h'
      have hrstats := List.mem_filter.mp hrfl
      refine ⟨r.2, by rw [hf]; exact hrstats.1, by simpa using hrstats.2, hscore, hn, ?_⟩
      intro q hq hq5
      have hqfl : q ∈ ls.stats.filter (fun p => p.2.load_samples.length ≥ 5) :=
        List.mem_filter.mpr ⟨hq, by simpa using hq5⟩
      rw [hfl] at hqfl
      rcases List.mem_cons.mp hqfl with hqx | hqrest
      · subst hqx
        refine ⟨hge, fun hkey => ?_⟩
        rcases hrel with h' | h'
        · rw [hf, h']
        · rw [hf]; exact le_of_lt h'
      · refine ⟨hall q hqrest, fun hkey => ?_⟩
        rcases htie q hqrest hkey with h' | h'
        · rw [hf, h']
        · rw [hf]; exact le_of_lt h'

lemma tieState_filter :
    tieState.stats.filter (fun p => p.2.load_samples.length ≥ 5) =
      [(350, ⟨1, [60, 60, 60, 60, 60], none⟩),
       (400, ⟨0, [80, 80, 80, 80, 80], some 1⟩)] := by decide

lemma comfort_at_60 :
    (FrequencyStats.mk 1 [60, 60, 60, 60, 60] none).comfort_score = 90 := by
  unfold FrequencyStats.comfort_score FrequencyStats.average_load
  norm_num [List.sum_cons, List.sum_nil]

lemma comfort_at_80 :
    (FrequencyStats.mk 0 [80, 80, 80, 80, 80] (some 1)).comfort_score = 90 := by
  unfold FrequencyStats.comfort_score FrequencyStats.average_load
  norm_num [List.sum_cons, List.sum_nil]

/-- C3 counterexample: on a comfort-score tie (five samples at 60 % load
on 350 MHz and five at 80 % on 400 MHz, both scoring 90) the code returns
the *higher* frequency 400 MHz, while the claim's "ties broken by lower
frequency" rule would return 350 MHz. -/
theorem learning_finalize_counterexample :
    tieState.get_best_frequency = some (400, 90, 5) ∧
    get_best_frequency_lowTie tieState = some (350, 90, 5) ∧
    tieState.get_best_frequency ≠ get_best_frequency_lowTie tieState := by
  have h1 : tieState.get_best_frequency = some (400, 90, 5) := by
    unfold LearningStats.get_best_frequency
    rw [tieState_filter]
    simp only [maxByLast, max1, List.foldl_cons, List.foldl_nil]
    rw [if_neg (by rw [comfort_at_60, comfort_at_80]; exact lt_irrefl _)]
    simp [comfort_at_80]
  have h2 : get_best_frequency_lowTie tieState = some (350, 90, 5) := by
    unfold get_best_frequency_lowTie
    rw [tieState_filter]
    simp only [List.foldl_cons, List.foldl_nil]
    rw [if_neg (by rw [comfort_at_60, comfort_at_80]; exact lt_irrefl _)]
    simp [comfort_at_60]
  exact ⟨h1, h2, by rw [h1, h2]; simp⟩

/-- Witness for `learning_finalize_best` at the concrete `tieState`. -/
theorem learning_finalize_best_witness :
    tieState.stats.Pairwise (fun p q => p.1 < q.1) ∧
    ((tieState.get_best_frequency = none ↔
        ∀ p ∈ tieState.stats, p.2.load_samples.length < 5) ∧
      (∀ f score n, tieState.get_best_frequency = some (f, score, n) →
        ∃ st, (f, st) ∈ tieState.stats ∧ 5 ≤ st.load_samples.length ∧
          score = st.comfort_score ∧ n = st.load_samples.length ∧
          ∀ q ∈ tieState.stats, 5 ≤ q.2.load_samples.length →
            q.2.comfort_score ≤ st.comfort_score ∧
              (q.2.comfort_score = st.comfort_score → q.1 ≤ f))) :=
  ⟨by decide, learning_finalize_best tieState (by decide)⟩

/-- C4 (amended): the Applied → Re-evaluating transition fires only when
the load history is full (`SATURATION_HISTORY_SIZE` = 6000 entries,
≈ 60 s) and the average load is above `HIGH_LOAD_THRESHOLD` = **80 %** or
below `LOW_LOAD_THRESHOLD` = **40 %**, with the tracked process stable
(the spec's 90 % / 50 % figures do not match `src/lib.rs`). -/
theorem applied_reevaluation_trigger (g : ProcessAwareGovernor) (stable hasProfile : Prop)
    (h : AppliedReevalTrigger g stable hasProfile) :
    g.mode = GovernorMode.Applied ∧
    SATURATION_HISTORY_SIZE ≤ g.load_history.length ∧
    (HIGH_LOAD_THRESHOLD < g.average_load ∨ g.average_load < LOW_LOAD_THRESHOLD) ∧
    stable := by
  rcases h with ⟨⟨hsat, hstable⟩, _⟩ | ⟨_, ⟨hund, hstable⟩, _⟩
  · exact ⟨hsat.1, hsat.2.1, Or.inl hsat.2.2, hstable⟩
  · exact ⟨hund.1, hund.2.1, Or.inr hund.2.2, hstable⟩

lemma govAt85_len : SATURATION_HISTORY_SIZE ≤ govAt85.load_history.length := by
  have h : govAt85.load_history.length = 6000 := List.length_replicate _ _
  rw [h]
  norm_num [SATURATION_HISTORY_SIZE]

lemma govAt85_average : govAt85.average_load = 85 := by
  unfold ProcessAwareGovernor.average_load govAt85
  rw [if_neg (by simp)]
  rw [List.sum_replicate, List.length_replicate]
  norm_num

/-- C4 counterexample: at a constant 85 % average load the code triggers
re-evaluation (`check_saturation` is true because 85 > 80), although the
claim's condition "average load above 90 % or below 50 %" is false. -/
theorem applied_reevaluation_counterexample :
    AppliedReevalTrigger govAt85 True True ∧
    ¬((90 : ℚ) < govAt85.average_load ∨ govAt85.average_load < 50) := by
  constructor
  · refine Or.inl ⟨⟨⟨rfl, govAt85_len, ?_⟩, trivial⟩, trivial⟩
    rw [govAt85_average]
    unfold HIGH_LOAD_THRESHOLD
    norm_num
  · rw [govAt85_average]
    norm_num

/-- Witness for `applied_reevaluation_trigger` at the concrete `govAt85`
state. -/
theorem applied_reevaluation_trigger_witness :
    AppliedReevalTrigger govAt85 True True ∧
    (govAt85.mode = GovernorMode.Applied ∧
      SATURATION_HISTORY_SIZE ≤ govAt85.load_history.length ∧
      (HIGH_LOAD_THRESHOLD < govAt85.average_load ∨
        govAt85.average_load < LOW_LOAD_THRESHOLD) ∧
      True) :=
  have htrig : AppliedReevalTrigger govAt85 True True :=
    Or.inl ⟨⟨⟨rfl, govAt85_len,
      by rw [govAt85_average]; unfold HIGH_LOAD_THRESHOLD; norm_num⟩, trivial⟩, trivial⟩
  ⟨htrig, applied_reevaluation_trigger govAt85 True True htrig⟩

/-- C5 counterexample: at 350 MHz / 700 mV neither actuation path
produces the claimed trace — `jh_set` writes without newlines and never
flushes, and the example flushes once after both writes rather than after
each. -/
theorem actuation_trace_counterexample :
    jh_set_actuation 350 700 ≠ claimedActuation 350 700 ∧
    set_gpu_frequency_events 350 ≠ claimedActuation 350 700 := by
  constructor <;> decide

/-- C5 (amended): every actuation performs exactly two writes. The ramp
governor writes `"vc 0 <f> <v>"` then `"c"`, with no trailing newline and
no flush; the process-aware example writes the same two commands each
with a trailing `"\n"` (voltage from `interpolate_voltage`), followed by
one flush after the second write. -/
theorem actuation_trace_formats (freq vol : ℕ) :
    ((jh_set_actuation freq vol).filter IoEvent.isWrite).length = 2 ∧
    ((jh_set_actuation freq vol).filter (fun e => !e.isWrite)).length = 0 ∧
    ((set_gpu_frequency_events freq).filter IoEvent.isWrite).length = 2 ∧
    jh_set_actuation freq vol =
      [IoEvent.write ("vc 0 " ++ toString freq ++ " " ++ toString vol),
       IoEvent.write ("c")] ∧
    set_gpu_frequency_events freq =
      ((jh_set_actuation freq (interpolate_voltage freq)).map
        (fun e => match e with
          | IoEvent.write s => IoEvent.write (s ++ "\n")
          | IoEvent.flush => IoEvent.flush)) ++ [IoEvent.flush] :=
  ⟨rfl, rfl, rfl, rfl, rfl⟩

/-! ### C9: properties of `interpolate_voltage` -/

lemma interpolate_voltage_mid (f : ℕ) (h1 : ¬ f ≤ MIN_FREQ_MHZ) (h2 : ¬ f ≥ MAX_FREQ_MHZ) :
    interpolate_voltage f = MIN_VOLTAGE_MV + (f - MIN_FREQ_MHZ) * 300 / 1650 := by
  unfold interpolate_voltage
  rw [if_neg h1, if_neg h2]
  have hle : (f - MIN_FREQ_MHZ) * 300 / 1650 < 2 ^ 16 := by
    unfold MIN_FREQ_MHZ MAX_FREQ_MHZ at *
    have hf : f - 350 ≤ 1649 := by omega
    have : (f - 350) * 300 ≤ 1649 * 300 := Nat.mul_le_mul_right _ hf
    have := Nat.div_le_div_right (c := 1650) this
    omega
  show MIN_VOLTAGE_MV + (f - MIN_FREQ_MHZ) * (MAX_VOLTAGE_MV - MIN_VOLTAGE_MV) /
      (MAX_FREQ_MHZ - MIN_FREQ_MHZ) % 2 ^ 16 = _
  rw [show MAX_VOLTAGE_MV - MIN_VOLTAGE_MV = 300 from rfl,
    show MAX_FREQ_MHZ - MIN_FREQ_MHZ = 1650 from rfl,
    Nat.mod_eq_of_lt hle]

/-- C9: for every input frequency, `interpolate_voltage` returns a voltage
in `[MIN_VOLTAGE_MV, MAX_VOLTAGE_MV]` = [700, 1000] mV — exactly
`MIN_VOLTAGE_MV` when `f ≤ MIN_FREQ_MHZ` and exactly `MAX_VOLTAGE_MV`
when `f ≥ MAX_FREQ_MHZ` — and it is monotonically non-decreasing. -/
theorem interpolate_voltage_props :
    (∀ f : ℕ, MIN_VOLTAGE_MV ≤ interpolate_voltage f ∧
      interpolate_voltage f ≤ MAX_VOLTAGE_MV) ∧
    (∀ f : ℕ, f ≤ MIN_FREQ_MHZ → interpolate_voltage f = MIN_VOLTAGE_MV) ∧
    (∀ f : ℕ, MAX_FREQ_MHZ ≤ f → interpolate_voltage f = MAX_VOLTAGE_MV) ∧
    (∀ f₁ f₂ : ℕ, f₁ ≤ f₂ → interpolate_voltage f₁ ≤ interpolate_voltage f₂) := by
  have hbounds : ∀ f : ℕ, MIN_VOLTAGE_MV ≤ interpolate_voltage f ∧
      interpolate_voltage f ≤ MAX_VOLTAGE_MV := by
    intro f
    by_cases h1 : f ≤ MIN_FREQ_MHZ
    · rw [show interpolate_voltage f = MIN_VOLTAGE_MV from by
        unfold interpolate_voltage; rw [if_pos h1]]
      exact ⟨le_refl _, by unfold MIN_VOLTAGE_MV MAX_VOLTAGE_MV; omega⟩
    · by_cases h2 : f ≥ MAX_FREQ_MHZ
      · rw [show interpolate_voltage f = MAX_VOLTAGE_MV from by
          unfold interpolate_voltage; rw [if_neg h1, if_pos h2]]
        exact ⟨by unfold MIN_VOLTAGE_MV MAX_VOLTAGE_MV; omega, le_refl _⟩
      · rw [interpolate_voltage_mid f h1 h2]
        constructor
        · exact Nat.le_add_right _ _
        · unfold MIN_FREQ_MHZ MAX_FREQ_MHZ MIN_VOLTAGE_MV MAX_VOLTAGE_MV at *
          have hf : f - 350 ≤ 1649 := by omega
          have h3 : (f - 350) * 300 ≤ 1649 * 300 := Nat.mul_le_mul_right _ hf
          have h4 := Nat.div_le_div_right (c := 1650) h3
          omega
  refine ⟨hbounds, ?_, ?_, ?_⟩
  · intro f h
    unfold interpolate_voltage
    rw [if_pos h]
  · intro f h
    unfold interpolate_voltage
    by_cases h1 : f ≤ MIN_FREQ_MHZ
    · exfalso
      unfold MIN_FREQ_MHZ MAX_FREQ_MHZ at *
      omega
    · rw [if_neg h1, if_pos h]
  · intro f₁ f₂ h12
    by_cases h2 : f₂ ≤ MIN_FREQ_MHZ
    · have h1 : f₁ ≤ MIN_FREQ_MHZ := le_trans h12 h2
      unfold interpolate_voltage
      rw [if_pos h1, if_pos h2]
    · by_cases h1 : f₁ ≤ MIN_FREQ_MHZ
      · rw [show interpolate_voltage f₁ = MIN_VOLTAGE_MV from by
          unfold interpolate_voltage; rw [if_pos h1]]
        exact (hbounds f₂).1
      · by_cases h4 : f₂ ≥ MAX_FREQ_MHZ
        · rw [show interpolate_voltage f₂ = MAX_VOLTAGE_MV from by
            unfold interpolate_voltage; rw [if_neg h2, if_pos h4]]
          exact (hbounds f₁).2
        · have h3 : ¬ f₁ ≥ MAX_FREQ_MHZ := by
            intro hc
            exact h4 (le_trans hc h12)
          rw [interpolate_voltage_mid f₁ h1 h3, interpolate_voltage_mid f₂ h2 h4]
          exact Nat.add_le_add_left
            (Nat.div_le_div_right (Nat.mul_le_mul_right _ (Nat.sub_le_sub_right h12 _))) _

/-- Witness for `interpolate_voltage_props`: monotonicity applied at
900 ≤ 1500 (and the computed end-point values). -/
theorem interpolate_voltage_props_witness :
    ((900 : ℕ) ≤ 1500 ∧ interpolate_voltage 900 ≤ interpolate_voltage 1500) ∧
    interpolate_voltage 350 = 700 ∧ interpolate_voltage 2000 = 1000 :=
  ⟨⟨by norm_num, interpolate_voltage_props.2.2.2 900 1500 (by norm_num)⟩,
   by decide, by decide⟩

lemma updateTracked_excluded (c : Option String) (deltas : List (String × ℚ))
    (hc : ∀ m, c = some m → is_excluded_process m = false)
    (m : String) (h : updateTracked c deltas = some m) :
    is_excluded_process m = false := by
  unfold updateTracked at h
  by_cases h1 : deltas.isEmpty
  · rw [if_pos h1] at h
    exact absurd h (by simp)
  · rw [if_neg h1] at h
    by_cases h2 : (deltas.filter
        (fun d => MIN_GPU_USAGE_PERCENT ≤ d.2 ∧ is_excluded_process d.1 = false)).isEmpty
    · rw [if_pos h2] at h
      exact absurd h (by simp)
    · rw [if_neg h2] at h
      cases hdom : maxByLast Prod.snd (deltas.filter
          (fun d => MIN_GPU_USAGE_PERCENT ≤ d.2 ∧ is_excluded_process d.1 = false)) with
      | none => rw [hdom] at h; exact hc m h
      | some dominant =>
        rw [hdom] at h
        have hmem := maxByLast_mem Prod.snd hdom
        have hfilt := (List.mem_filter.mp hmem).2
        have hdomex : is_excluded_process dominant.1 = false := by
          have := of_decide_eq_true hfilt
          exact this.2
        dsimp only at h
        split_ifs at h
        · exact (Option.some_inj.mp h) ▸ hdomex
        · exact hc m h

/-- C8: starting from a fresh monitor (`current_process = None`), after any
sequence of updates (rate-limited or scanning), a process whose resolved
name is excluded by exact-basename match can never be the tracked
process — excluded names are filtered out before the dominant-process
selection in every update. -/
lemma foldl_monitorStep_excluded (scans : List (Option (List (String × ℚ)))) :
    ∀ (c : Option String), (∀ m, c = some m → is_excluded_process m = false) →
      ∀ m, scans.foldl monitorStep c = some m → is_excluded_process m = false := by
  induction scans with
  | nil => exact fun c hc m hm => hc m hm
  | cons s rest ih =>
    intro c hc m hm
    refine ih (monitorStep c s) ?_ m hm
    intro m' hm'
    cases s with
    | none => exact hc m' hm'
    | some deltas => exact updateTracked_excluded c deltas hc m' hm'

theorem excluded_never_tracked (scans : List (Option (List (String × ℚ)))) (n : String)
    (h : scans.foldl monitorStep none = some n) :
    is_excluded_process n = false :=
  foldl_monitorStep_excluded scans none (by simp) n h

/-- Witness for `excluded_never_tracked`: a single scan with one
significant game process makes it tracked, and it is not excluded. -/
theorem excluded_never_tracked_witness :
    [some [("GameX/game", (50 : ℚ))]].foldl monitorStep none = some ("GameX/game") ∧
    is_excluded_process ("GameX/game") = false :=
  ⟨by decide, excluded_never_tracked [some [("GameX/game", (50 : ℚ))]] ("GameX/game") (by decide)⟩

lemma updateEntry_cons (q : ℕ × FrequencyStats) (l : List (ℕ × FrequencyStats))
    (k : ℕ) (f : FrequencyStats → FrequencyStats) :
    updateEntry (q :: l) k f =
      (if q.1 = k then (q.1, f q.2) else q) :: updateEntry l k f := rfl

lemma lookupStat_cons (q : ℕ × FrequencyStats) (l : List (ℕ × FrequencyStats)) (g : ℕ) :
    lookupStat (q :: l) g = if q.1 = g then some q.2 else lookupStat l g := by
  unfold lookupStat
  by_cases h : q.1 = g
  · rw [List.find?_cons_of_pos _ (by simpa using h), if_pos h]
    rfl
  · rw [List.find?_cons_of_neg _ (by simpa using h), if_neg h]

lemma updateEntry_fst (l : List (ℕ × FrequencyStats)) (k : ℕ)
    (f : FrequencyStats → FrequencyStats) :
    (updateEntry l k f).map Prod.fst = l.map Prod.fst := by
  unfold updateEntry
  rw [List.map_map]
  congr 1
  funext p
  by_cases h : p.1 = k <;> simp [h]

lemma updateEntry_not_mem (l : List (ℕ × FrequencyStats)) (k : ℕ)
    (f : FrequencyStats → FrequencyStats) (h : k ∉ l.map Prod.fst) :
    updateEntry l k f = l := by
  induction l with
  | nil => rfl
  | cons p tl ih =>
    rw [List.map_cons, List.mem_cons] at h
    push_neg at h
    rw [updateEntry_cons, if_neg (fun hc => h.1 hc.symm), ih h.2]

lemma lookupStat_updateEntry (l : List (ℕ × FrequencyStats)) (k g : ℕ)
    (f : FrequencyStats → FrequencyStats) :
    lookupStat (updateEntry l k f) g =
      if g = k then (lookupStat l g).map f else lookupStat l g := by
  induction l with
  | nil => simp [updateEntry, lookupStat]
  | cons p tl ih =>
    rw [updateEntry_cons]
    by_cases hpk : p.1 = k
    · rw [if_pos hpk, lookupStat_cons, lookupStat_cons]
      by_cases hpg : p.1 = g
      · have hgk : g = k := by rw [← hpg, hpk]
        rw [if_pos hpg, if_pos hgk, if_pos hpg]
        rfl
      · have hgk : ¬ g = k := fun hc => hpg (by rw [hpk, ← hc])
        rw [if_neg hpg, if_neg hpg, ih, if_neg hgk]
    · rw [if_neg hpk, lookupStat_cons, lookupStat_cons]
      by_cases hpg : p.1 = g
      · have hgk : ¬ g = k := fun hc => hpk (hpg.trans hc)
        rw [if_pos hpg, if_neg hgk, if_pos hpg]
      · rw [if_neg hpg, if_neg hpg, ih]

lemma exit_samples (st : FrequencyStats) (now : ℕ) :
    (st.exit now).load_samples = st.load_samples := by
  unfold FrequencyStats.exit
  cases st.last_entry <;> rfl

lemma set_frequency_keys (ls : LearningStats) (f : ℕ) (load : ℚ) (now : ℕ) :
    (ls.set_frequency f load now).stats.map Prod.fst = ls.stats.map Prod.fst := by
  unfold LearningStats.set_frequency
  cases ls.current_freq <;> simp [updateEntry_fst]

lemma add_load_sample_keys (ls : LearningStats) (load : ℚ) :
    (ls.add_load_sample load).stats.map Prod.fst = ls.stats.map Prod.fst := by
  unfold LearningStats.add_load_sample
  cases ls.current_freq <;> simp [updateEntry_fst]

lemma applyOps_keys (ops : List LOp) :
    (applyOps ops).stats.map Prod.fst = gridFreqs := by
  suffices h : ∀ ls : LearningStats,
      (ops.foldl LearningStats.applyOp ls).stats.map Prod.fst = ls.stats.map Prod.fst by
    rw [applyOps, h]
    unfold LearningStats.new
    rw [List.map_map]
    exact List.map_id gridFreqs
  induction ops with
  | nil => exact fun _ => rfl
  | cons op rest ih =>
    intro ls
    rw [List.foldl_cons, ih]
    cases op with
    | set f load now => exact set_frequency_keys ls f load now
    | add load => exact add_load_sample_keys ls load

lemma lookupStat_eq_none (l : List (ℕ × FrequencyStats)) (g : ℕ) :
    lookupStat l g = none ↔ g ∉ l.map Prod.fst := by
  unfold lookupStat
  rw [Option.map_eq_none', List.find?_eq_none]
  simp only [List.mem_map, decide_eq_true_eq]
  constructor
  · rintro h ⟨p, hp, hpg⟩
    exact h p hp hpg
  · intro h p hp hpg
    exact h ⟨p, hp, hpg⟩

lemma add_load_sample_noop (ls : LearningStats) (load : ℚ) (f : ℕ)
    (hcur : ls.current_freq = some f) (hmem : f ∉ ls.stats.map Prod.fst) :
    ls.add_load_sample load = ls := by
  unfold LearningStats.add_load_sample
  rw [hcur]
  simp only [updateEntry_not_mem _ _ _ hmem]
  rw [← hcur]

/-- C10: `LearningStats` keeps records only for the fixed grid
350, 400, …, 2000 MHz; `set_frequency` at an off-grid frequency `f`
records no load sample anywhere, leaves `f` without a stats entry, yet
still makes `f` the current frequency — so every subsequent
`add_load_sample` is silently discarded (the state does not change at
all) until `set_frequency` is next called. -/
theorem learning_grid_only (ops : List LOp) (f : ℕ) (load : ℚ) (now : ℕ)
    (hf : f ∉ gridFreqs) :
    (∀ p ∈ (applyOps ops).stats, p.1 ∈ gridFreqs) ∧
    ((applyOps ops).set_frequency f load now).current_freq = some f ∧
    lookupStat ((applyOps ops).set_frequency f load now).stats f = none ∧
    (∀ g, (lookupStat ((applyOps ops).set_frequency f load now).stats g).map
        (fun st => st.load_samples) =
      (lookupStat (applyOps ops).stats g).map (fun st => st.load_samples)) ∧
    (∀ loads : List ℚ,
      loads.foldl LearningStats.add_load_sample
          ((applyOps ops).set_frequency f load now) =
        (applyOps ops).set_frequency f load now) := by
  set s := applyOps ops with hs
  set s' := s.set_frequency f load now with hs'
  have hkeys : s.stats.map Prod.fst = gridFreqs := applyOps_keys ops
  have hkeys' : s'.stats.map Prod.fst = gridFreqs := by
    rw [hs', set_frequency_keys, hkeys]
  have hfk : f ∉ s.stats.map Prod.fst := by rw [hkeys]; exact hf
  have hfk' : f ∉ s'.stats.map Prod.fst := by rw [hkeys']; exact hf
  have hcur : s'.current_freq = some f := by
    rw [hs']
    unfold LearningStats.set_frequency
    cases s.current_freq <;> rfl
  have hstats : s'.stats = match s.current_freq with
      | some prev => updateEntry s.stats prev (fun st => st.exit now)
      | none => s.stats := by
    rw [hs']
    unfold LearningStats.set_frequency
    cases hc : s.current_freq with
    | none =>
      dsimp only
      exact updateEntry_not_mem _ _ _ hfk
    | some prev =>
      dsimp only
      refine updateEntry_not_mem _ _ _ ?_
      rw [updateEntry_fst]
      exact hfk
  refine ⟨?_, hcur, ?_, ?_, ?_⟩
  · intro p hp
    rw [← hkeys]
    exact List.mem_map_of_mem Prod.fst hp
  · rw [lookupStat_eq_none]
    exact hfk'
  · intro g
    rw [hstats]
    cases hc : s.current_freq with
    | none => rfl
    | some prev =>
      rw [lookupStat_updateEntry]
      by_cases hg : g = prev
      · rw [if_pos hg]
        cases hl : lookupStat s.stats g with
        | none => rfl
        | some st => simp [exit_samples]
      · rw [if_neg hg]
  · intro loads
    induction loads with
    | nil => rfl
    | cons x rest ihl =>
      rw [List.foldl_cons, add_load_sample_noop s' x f hcur hfk', ihl]

/-- Witness for `learning_grid_only`: 375 MHz is not on the 50 MHz grid. -/
theorem learning_grid_only_witness :
    (375 ∉ gridFreqs) ∧
    ((∀ p ∈ (applyOps []).stats, p.1 ∈ gridFreqs) ∧
      ((applyOps []).set_frequency 375 50 0).current_freq = some 375 ∧
      lookupStat ((applyOps []).set_frequency 375 50 0).stats 375 = none ∧
      (∀ g, (lookupStat ((applyOps []).set_frequency 375 50 0).stats g).map
          (fun st => st.load_samples) =
        (lookupStat (applyOps []).stats g).map (fun st => st.load_samples)) ∧
      (∀ loads : List ℚ,
        loads.foldl LearningStats.add_load_sample
            ((applyOps []).set_frequency 375 50 0) =
          (applyOps []).set_frequency 375 50 0)) :=
  ⟨by decide, learning_grid_only [] 375 50 0 (by decide)⟩

end CyanSkillfish
